import Mathlib

/-!
Shallow embedding of the position-lifecycle and risk-governance core of the
Fibonacci golden-pocket trading bot: the safety validator
(src/safety_validator.py), the exposure limiter, sentiment multiplier and
scale-in arithmetic of the live bot (src/live_trading_bot.py), the decision
logger mirror (src/trading_decision_logger.py) and position recovery
(src/position_recovery.py).  Prices, sizes and leverages are embedded as
rationals; Python dicts with optional keys become structures with `Option`
fields wherever the source reads them through `.get` with a default.
-/

/-- A position dict as consumed by the safety validator.  The live bot always
stores `size`, `leverage` and `average_price`; `capital_used` is read through
`.get` with key `capital_used` and default 0.80, and is never written by the live bot, so it is
kept optional.  A falsy (`None`/`0`) `average_price` is embedded as `0`. -/
structure Pos where
  size : ℚ
  leverage : ℚ
  average_price : ℚ
  capital_used : Option ℚ
deriving DecidableEq

/-- One record appended to the daily adjustment ledger by `log_adjustment`. -/
structure AdjRecord where
  time : String
  action : String
  amount : ℚ
deriving DecidableEq

/-- The mutable state of a `SafetyValidator` instance: the per-day adjustment
ledger (a date-keyed association list standing for the Python dict) and the
time of the last recorded adjustment. -/
structure ValidatorState where
  adjustment_log : List (String × List AdjRecord)
  last_adjustment_time : ℚ
deriving DecidableEq

/-- Fresh validator state, as built by `SafetyValidator.__init__`. -/
def emptyValidator : ValidatorState := ⟨[], 0⟩

/-- Embedding of `adjustment_log.get(day, [])` on the association-list embedding. -/
def getLog : List (String × List AdjRecord) → String → List AdjRecord
  | [], _ => []
  | (d, rs) :: rest, day => if d = day then rs else getLog rest day

/-- The ledger update done by `log_adjustment`: create the day entry when it
is absent, then append the record to it. -/
def logUpdate : List (String × List AdjRecord) → String → AdjRecord →
    List (String × List AdjRecord)
  | [], day, rec => [(day, [rec])]
  | (d, rs) :: rest, day, rec =>
      if d = day then (d, rs ++ [rec]) :: rest
      else (d, rs) :: logUpdate rest day rec

/-- The `(approved, reason, adjusted_decision)` triple returned by every
validator method; `adjusted` carries the `size_or_amount` of the returned
decision dict, `none` when Python returns `None`. -/
structure Verdict where
  approved : Bool
  reason : String
  adjusted : Option ℚ
deriving DecidableEq

namespace SafetyValidator

def MIN_LIQUID_RESERVE : ℚ := 6/100
def MAX_CAPITAL_USAGE : ℚ := 94/100
def MAX_LEVERAGE : ℚ := 5
def MAX_TOTAL_NOTIONAL : ℚ := 5
def MIN_POSITION_SIZE : ℚ := 1/4
def MAX_POSITION_SIZE : ℚ := 3/4
def MAX_ADJUSTMENTS_PER_DAY : ℕ := 3
def MAX_ADD_PER_REVIEW : ℚ := 1/20

/-- Embedding of `SafetyValidator._calculate_current_notional`: zero when flat or the size
is zero, otherwise the estimated capital fraction (default 0.80) times the
position leverage. -/
def calculate_current_notional (position : Option Pos) : ℚ :=
  match position with
  | none => 0
  | some p => if p.size = 0 then 0 else p.capital_used.getD (4/5) * p.leverage

/-- Embedding of `SafetyValidator._calculate_roi`: leveraged price change of the position
as a percentage; `0` when the position has a falsy average price. -/
def calculate_roi (position : Pos) (current_price : ℚ) : ℚ :=
  if position.average_price = 0 then 0
  else
    let price_change := (current_price - position.average_price) / position.average_price
    price_change * position.leverage * 100

/-- Embedding of `SafetyValidator.validate_entry` as a state transformer: the
method never assigns to `self`, so each Python `return` yields the incoming
state unchanged next to the verdict.  Entry leverage is the literal `3` of
the source. -/
def validate_entry (s : ValidatorState) (size : ℚ) (current_position : Option Pos) :
    ValidatorState × Verdict :=
  let leverage : ℚ := 3
  if size < MIN_POSITION_SIZE then
    (s, ⟨false, "Size below minimum", none⟩)
  else if MAX_POSITION_SIZE < size then
    (s, ⟨true, "Capped at 75 percent maximum", some MAX_POSITION_SIZE⟩)
  else
    let current_deployed := match current_position with
      | some p => p.size
      | none => 0
    let total_deployed := current_deployed + size
    if MAX_CAPITAL_USAGE < total_deployed then
      let max_allowed := MAX_CAPITAL_USAGE - current_deployed
      if max_allowed ≤ 0 then
        (s, ⟨false, "No capital available (94 percent already deployed)", none⟩)
      else
        (s, ⟨true, "Reduced to maintain 6 percent liquid reserve", some max_allowed⟩)
    else
      let current_notional := calculate_current_notional current_position
      let new_notional := size * leverage
      let total_notional := current_notional + new_notional
      if MAX_TOTAL_NOTIONAL < total_notional then
        let allowed_notional := MAX_TOTAL_NOTIONAL - current_notional
        if allowed_notional ≤ 0 then
          (s, ⟨false, "Already at notional limit", none⟩)
        else
          (s, ⟨true, "Reduced to fit notional limit", some (allowed_notional / leverage)⟩)
      else if MAX_LEVERAGE < leverage then
        (s, ⟨false, "Leverage exceeds maximum", none⟩)
      else
        (s, ⟨true, "Trade approved by safety layer", some size⟩)

/-- Embedding of `SafetyValidator.validate_adjustment`.  Here `today` stands for
`date.today().isoformat()` and `now` for `time.time()`; the two sequential
`if action == ...` blocks of the source are flattened into an equivalent
chain since the action string matches at most one of them.  The ADD notional
check reads the position leverage (present in every live position dict). -/
def validate_adjustment (s : ValidatorState) (today : String) (now : ℚ)
    (action : String) (amount : ℚ) (current_position : Pos) (current_price : ℚ) :
    ValidatorState × Verdict :=
  let todays_adjustments := getLog s.adjustment_log today
  if MAX_ADJUSTMENTS_PER_DAY ≤ todays_adjustments.length then
    (s, ⟨false, "Already made 3 adjustments today", none⟩)
  else
    let time_since_last := now - s.last_adjustment_time
    if time_since_last < 1800 ∧ 0 < s.last_adjustment_time then
      (s, ⟨false, "Must wait more minutes", none⟩)
    else if action = "ADD" ∧ MAX_ADD_PER_REVIEW < amount then
      (s, ⟨true, "Capped at 5 percent max add", some MAX_ADD_PER_REVIEW⟩)
    else if action = "ADD" ∧ MAX_TOTAL_NOTIONAL <
        calculate_current_notional (some current_position) + amount * current_position.leverage then
      (s, ⟨false, "Would exceed 5x notional limit", none⟩)
    else if action = "REDUCE" ∧ calculate_roi current_position current_price < 0 then
      (s, ⟨false, "BLOCKED: Cannot reduce while in loss (ROE below 0). Either HOLD or EMERGENCY_EXIT.", none⟩)
    else if action = "REDUCE" ∧ (1/5 : ℚ) < amount then
      (s, ⟨true, "Capped at 20 percent max reduce", some (1/5)⟩)
    else
      (s, ⟨true, "Adjustment approved", some amount⟩)

/-- Embedding of `SafetyValidator.validate_exit`: reject exit fractions outside 25 to 100
percent, otherwise approve the decision unmodified. -/
def validate_exit (s : ValidatorState) (exit_pct : ℚ) : ValidatorState × Verdict :=
  if exit_pct < 1/4 ∨ 1 < exit_pct then
    (s, ⟨false, "Exit percentage outside 25-100 percent range", none⟩)
  else
    (s, ⟨true, "Exit approved", some exit_pct⟩)

/-- Embedding of `SafetyValidator.log_adjustment`: append a record to the ledger of the current day
(creating the day entry when absent) and reset the cooldown timer. -/
def log_adjustment (s : ValidatorState) (today nowIso : String) (now : ℚ)
    (action : String) (amount : ℚ) : ValidatorState :=
  { adjustment_log := logUpdate s.adjustment_log today ⟨nowIso, action, amount⟩
    last_adjustment_time := now }

end SafetyValidator

/-- The position dict of the live bot as created by `enter_position` and mutated by
`check_scale_in` (`entry_time` is irrelevant to the claims and omitted). -/
structure BotPos where
  entry_price : ℚ
  average_price : ℚ
  size : ℚ
  leverage : ℚ
deriving DecidableEq

namespace Bot

def MAX_NOTIONAL_EXPOSURE : ℚ := 5
def MAX_CAPITAL_USAGE : ℚ := 27/20

/-- The current-notional expression of `check_exposure_limits`:
`total_position_size * (current_leverage if current_leverage > 0 else 1)`. -/
def currentNotional (total_position_size current_leverage : ℚ) : ℚ :=
  total_position_size * (if 0 < current_leverage then current_leverage else 1)

/-- The notional stage of `check_exposure_limits`, applied to the (possibly
capital-clipped) desired size: recompute the new notional and clip again or
block when the 5x headroom is gone. -/
def notionalClip (current_notional desired_size leverage : ℚ) : ℚ :=
  let new_notional := desired_size * leverage
  let total_notional := current_notional + new_notional
  if MAX_NOTIONAL_EXPOSURE < total_notional then
    let allowed_notional := MAX_NOTIONAL_EXPOSURE - current_notional
    if allowed_notional ≤ 0 then 0
    else allowed_notional / leverage
  else desired_size

/-- Embedding of `LiveFibonacciBot.check_exposure_limits`: clip the desired size by the
135 percent capital cap first, then re-run the notional check on the clipped
size (the source mutates `desired_size` in place and falls through). -/
def check_exposure_limits (total_position_size current_leverage desired_size leverage : ℚ) : ℚ :=
  let current_capital_used := total_position_size
  let current_notional := currentNotional total_position_size current_leverage
  let total_capital := current_capital_used + desired_size
  if MAX_CAPITAL_USAGE < total_capital then
    let allowed_capital := MAX_CAPITAL_USAGE - current_capital_used
    if allowed_capital ≤ 0 then 0
    else notionalClip current_notional allowed_capital leverage
  else notionalClip current_notional desired_size leverage

/-- Embedding of `LiveFibonacciBot.calculate_sentiment_multiplier`: three contrarian
sub-multipliers (fear/greed, funding rate, long/short ratio), averaged and
clamped to the interval from 0.5 to 1.5. -/
def calculate_sentiment_multiplier (fear_greed funding_rate lsRat : ℚ) : ℚ :=
  let m1 : ℚ :=
    if fear_greed < 25 then 13/10
    else if fear_greed < 40 then 11/10
    else if 75 < fear_greed then 3/5
    else 1
  let m2 : ℚ :=
    if funding_rate < -(1/100) then 13/10
    else if funding_rate < 0 then 11/10
    else if 1/20 < funding_rate then 1/2
    else if 1/50 < funding_rate then 4/5
    else 1
  let m3 : ℚ :=
    if 2 < lsRat then 4/5
    else if 3/2 < lsRat then 1
    else if lsRat < 4/5 then 6/5
    else 1
  let final_multiplier := (m1 + m2 + m3) / 3
  max (1/2) (min (3/2) final_multiplier)

/-- The position created by `enter_position` on a successful fill:
entry and average price are the fill price. -/
def open_position (price size leverage : ℚ) : BotPos :=
  ⟨price, price, size, leverage⟩

/-- The position update of `check_scale_in` after a successful scale-in
order: capital-weighted new average price, summed size, and the leverage
field overwritten with the leverage of the new trade. -/
def scale_in_update (pos : BotPos) (current_price add_size new_leverage : ℚ) : BotPos :=
  let old_avg := pos.average_price
  let old_size := pos.size
  let new_size := old_size + add_size
  let new_avg := (old_size * old_avg + add_size * current_price) / new_size
  { pos with average_price := new_avg, size := new_size, leverage := new_leverage }

end Bot

/-- A proposal reaching the risk gates: an entry proposal (validated by
`SafetyValidator.validate_entry` with the base leverage 3, per
`enter_position` and `run_cycle`) or a scale-in proposal (validated by
`Bot.check_exposure_limits`, per `check_scale_in`). -/
inductive TradeStep where
  | entry (price proposed_size : ℚ)
  | scaleIn (price desired_size new_leverage : ℚ)
deriving DecidableEq

/-- One cycle of the entry/scale-in state machine of `run_cycle`: entries fire
only when flat (`self.position is None`) and commit the safety-validated size
at leverage 3; scale-ins fire only on an open position, commit the
limiter-clipped size and are blocked when it is zero.  Rejected proposals
leave the position unchanged. -/
def stepTrade (s : Option BotPos) (st : TradeStep) : Option BotPos :=
  match s, st with
  | none, TradeStep.entry price proposed =>
      let r := (SafetyValidator.validate_entry emptyValidator proposed none).2
      if r.approved then some (Bot.open_position price (r.adjusted.getD proposed) 3)
      else none
  | some pos, TradeStep.entry _ _ => some pos
  | none, TradeStep.scaleIn _ _ _ => none
  | some pos, TradeStep.scaleIn price desired new_leverage =>
      let add_size := Bot.check_exposure_limits pos.size pos.leverage desired new_leverage
      if add_size = 0 then some pos
      else some (Bot.scale_in_update pos price add_size new_leverage)

/-- Aggregate committed capital fraction of a possibly-flat position. -/
def optSize : Option BotPos → ℚ
  | none => 0
  | some p => p.size

/-- One scale-in fill as applied by `check_scale_in`: fill price, added
capital fraction and the leverage of the new trade. -/
structure ScaleFill where
  price : ℚ
  add_size : ℚ
  new_leverage : ℚ
deriving DecidableEq

/-- Apply one scale-in fill to an open position. -/
def applyFill (pos : BotPos) (f : ScaleFill) : BotPos :=
  Bot.scale_in_update pos f.price f.add_size f.new_leverage

/-- Total capital added by a list of fills. -/
def fillSize (fills : List ScaleFill) : ℚ := (fills.map fun f => f.add_size).sum

/-- Total capital-weighted value of a list of fills. -/
def fillValue (fills : List ScaleFill) : ℚ := (fills.map fun f => f.add_size * f.price).sum

/-- A live exchange position as returned by
`AsterTradingClient.get_current_position` and consumed by
`PositionRecovery.recover_position`; `leverage` is read through
`.get` with key `leverage` and default 3. -/
structure LivePosition where
  amount : ℚ
  entry_price : ℚ
  leverage : Option ℚ
  pnl : ℚ
deriving DecidableEq

/-- The `position` object inside the persisted state file; only its
`average_price` key is read during recovery, through `.get`. -/
structure SavedPos where
  average_price : Option ℚ
deriving DecidableEq

/-- A successfully parsed `logs/position_state.json`; keys read through
`.get` are optional.  A missing or corrupt file is embedded as `none` at the
use sites. -/
structure SavedState where
  timestamp : String
  position : Option SavedPos
  last_entry_price : Option ℚ
  scale_in_count : Option ℕ
deriving DecidableEq

/-- The reconciled position dict built by `recover_position`. -/
structure RecoveredPosition where
  entry_price : ℚ
  average_price : ℚ
  size : ℚ
  leverage : ℚ
  entry_time : String
  scale_in_count : ℕ
deriving DecidableEq

/-- Embedding of `PositionRecovery.recover_position`: `none` when the exchange reports no
position (the stale state file is deleted); otherwise the reconciled position
uses the exchange entry price, size and leverage, prefers the locally saved
average price (when the saved `position` object carries one) and saved
scale-in count, and pairs the result with the recovered last entry price.
`nowIso` stands for `datetime.now().isoformat()`. -/
def recover_position (live : Option LivePosition) (saved : Option SavedState)
    (nowIso : String) : Option (RecoveredPosition × Option ℚ) :=
  match live with
  | none => none
  | some lp =>
      let recovered : RecoveredPosition :=
        { entry_price := lp.entry_price
          average_price :=
            match saved with
            | some ss =>
                match ss.position with
                | some sp => sp.average_price.getD lp.entry_price
                | none => lp.entry_price
            | none => lp.entry_price
          size := lp.amount
          leverage := lp.leverage.getD 3
          entry_time := match saved with
            | some ss => ss.timestamp
            | none => nowIso
          scale_in_count := match saved with
            | some ss => ss.scale_in_count.getD 0
            | none => 0 }
      let last_entry : Option ℚ := match saved with
        | some ss => ss.last_entry_price
        | none => some lp.entry_price
      some (recovered, last_entry)

/-- The in-memory position mirror of the logger (`self.current_position`). -/
structure Mirror where
  status : String
  entry_price : ℚ
  average_price : ℚ
  size : ℚ
  leverage : ℚ
  entry_time : String
deriving DecidableEq

/-- One record of the append-only decision list of the logger; only the fields
written by the recovery path are modelled. -/
structure DecisionRecord where
  timestamp : String
  action : String
  reasoning : String
deriving DecidableEq

/-- The decision logger state that recovery touches: the decision list and
the `current_position` mirror (`None` until an entry or recovery writes it). -/
structure LoggerState where
  decisions : List DecisionRecord
  current_position : Option Mirror
deriving DecidableEq

/-- Embedding of `PositionRecovery.log_recovery`: synchronizes the logger
`current_position` mirror with the recovered position and appends a RECOVERY
record to the decision list. -/
def log_recovery (logger : LoggerState) (position_data : RecoveredPosition)
    (nowIso : String) : LoggerState :=
  { current_position := some
      { status := "OPEN"
        entry_price := position_data.entry_price
        average_price := position_data.average_price
        size := position_data.size
        leverage := position_data.leverage
        entry_time := position_data.entry_time }
    decisions := logger.decisions ++
      [{ timestamp := nowIso, action := "RECOVERY",
         reasoning := "Position recovered after bot restart" }] }

lemma applyFill_size (p : BotPos) (f : ScaleFill) :
    (applyFill p f).size = p.size + f.add_size := rfl

lemma applyFill_avg (p : BotPos) (f : ScaleFill) :
    (applyFill p f).average_price
      = (p.size * p.average_price + f.add_size * f.price) / (p.size + f.add_size) := rfl

lemma fold_fills_invariant (fills : List ScaleFill) :
    ∀ p : BotPos, 0 < p.size → (∀ f ∈ fills, 0 < f.add_size) →
      (fills.foldl applyFill p).size = p.size + fillSize fills ∧
      (fills.foldl applyFill p).size * (fills.foldl applyFill p).average_price
        = p.size * p.average_price + fillValue fills := by
  induction fills with
  | nil => intro p hp _; simp [fillSize, fillValue]
  | cons f t ih =>
      intro p hp hpos
      have hf : 0 < f.add_size := hpos f (List.mem_cons_self f t)
      have hsize : 0 < (applyFill p f).size := by
        rw [applyFill_size]; linarith
      have hinv : (applyFill p f).size * (applyFill p f).average_price
          = p.size * p.average_price + f.add_size * f.price := by
        rw [applyFill_size, applyFill_avg]
        field_simp
      obtain ⟨h1, h2⟩ := ih (applyFill p f) hsize (fun g hg => hpos g (List.mem_cons_of_mem f hg))
      constructor
      · rw [List.foldl_cons, h1, applyFill_size]
        simp [fillSize]
        ring
      · rw [List.foldl_cons, h2, hinv]
        simp [fillValue]
        ring

/-- C2: after opening a position at price `p0` with size `s0` and applying any
list of scale-in fills with positive sizes through the `check_scale_in`
update, the resulting `average_price` is exactly the capital-weighted average
of all fill prices, the initial fill included. -/
theorem averaging_correct (p0 s0 l0 : ℚ) (fills : List ScaleFill)
    (hs0 : 0 < s0) (hpos : ∀ f ∈ fills, 0 < f.add_size) :
    (fills.foldl applyFill (Bot.open_position p0 s0 l0)).average_price
      = (s0 * p0 + fillValue fills) / (s0 + fillSize fills) := by
  obtain ⟨hsz, hval⟩ := fold_fills_invariant fills (Bot.open_position p0 s0 l0) hs0 hpos
  have hfs : 0 ≤ fillSize fills := by
    apply List.sum_nonneg
    intro x hx
    obtain ⟨f, hf, rfl⟩ := List.mem_map.mp hx
    exact le_of_lt (hpos f hf)
  have hden : 0 < s0 + fillSize fills := by linarith
  have hop : (Bot.open_position p0 s0 l0).size = s0 := rfl
  have hopavg : (Bot.open_position p0 s0 l0).average_price = p0 := rfl
  rw [hop] at hsz hval
  rw [hopavg] at hval
  rw [eq_div_iff (ne_of_gt hden), ← hsz]
  linarith [hval]

/-- Witness for `averaging_correct` at a concrete two-fill history:
open at price 100 with size 1/2, scale in 1/4 at price 90. -/
theorem averaging_correct_witness :
    (0:ℚ) < 1/2 ∧
    (([⟨90, 1/4, 4⟩] : List ScaleFill).foldl applyFill
        (Bot.open_position 100 (1/2) 3)).average_price
      = ((1/2) * 100 + fillValue [⟨90, 1/4, 4⟩]) / (1/2 + fillSize [⟨90, 1/4, 4⟩]) :=
  ⟨by norm_num,
   averaging_correct 100 (1/2) 3 [⟨90, 1/4, 4⟩] (by norm_num)
     (by intro f hf; rw [List.mem_singleton] at hf; subst hf; norm_num)⟩

/-- C3: whenever the leveraged ROI of the position fraction is negative, a REDUCE
adjustment is rejected by `validate_adjustment`, for every validator state,
clock, and proposed amount (the daily-limit and cooldown paths also reject,
so the verdict is unapproved on every path). -/
theorem reduce_in_loss_lock (s : ValidatorState) (today : String) (now : ℚ)
    (amount : ℚ) (pos : Pos) (price : ℚ) (havg : 0 < pos.average_price)
    (hloss : (price - pos.average_price) / pos.average_price * pos.leverage < 0) :
    (SafetyValidator.validate_adjustment s today now "REDUCE" amount pos price).2.approved
      = false := by
  have hroi : SafetyValidator.calculate_roi pos price < 0 := by
    unfold SafetyValidator.calculate_roi
    rw [if_neg (ne_of_gt havg)]
    exact mul_neg_of_neg_of_pos hloss (by norm_num)
  simp only [SafetyValidator.validate_adjustment]
  split_ifs with h1 h2 h3 h4 h5 h6
  · rfl
  · rfl
  · exact absurd h3.1 (by decide)
  · rfl
  · rfl
  · exact absurd ⟨trivial, hroi⟩ h5
  · exact absurd ⟨trivial, hroi⟩ h5

/-- Witness for `reduce_in_loss_lock`: a fresh validator, a position averaged
at 100 with 3x leverage, and the price at 90. -/
theorem reduce_in_loss_lock_witness :
    (0:ℚ) < 100 ∧ ((90 : ℚ) - 100) / 100 * 3 < 0 ∧
    (SafetyValidator.validate_adjustment emptyValidator "2025-10-12" 10 "REDUCE" (3/20)
        ⟨1/2, 3, 100, none⟩ 90).2.approved = false :=
  ⟨by norm_num, by norm_num,
   reduce_in_loss_lock emptyValidator "2025-10-12" 10 (3/20) ⟨1/2, 3, 100, none⟩ 90
     (by norm_num) (by norm_num)⟩

lemma validate_entry_flat_le (sz : ℚ)
    (h : (SafetyValidator.validate_entry emptyValidator sz none).2.approved = true) :
    (SafetyValidator.validate_entry emptyValidator sz none).2.adjusted.getD sz ≤ 3/4 := by
  simp only [SafetyValidator.validate_entry, SafetyValidator.MIN_POSITION_SIZE,
    SafetyValidator.MAX_POSITION_SIZE, SafetyValidator.MAX_CAPITAL_USAGE,
    SafetyValidator.MAX_TOTAL_NOTIONAL, SafetyValidator.MAX_LEVERAGE,
    SafetyValidator.calculate_current_notional] at h ⊢
  split_ifs at h ⊢ with h1 h2 h3 h4 h5 h6 h7
  · simp
  · exfalso; push_neg at h2; linarith
  · exfalso; push_neg at h2; linarith
  · push_neg at h2; simpa using h2

lemma check_exposure_limits_size_bound (S L d lev : ℚ) (hS : S ≤ Bot.MAX_CAPITAL_USAGE) :
    S + Bot.check_exposure_limits S L d lev ≤ Bot.MAX_CAPITAL_USAGE ∨
    Bot.check_exposure_limits S L d lev = 0 := by
  simp only [Bot.check_exposure_limits, Bot.notionalClip, Bot.MAX_CAPITAL_USAGE,
    Bot.MAX_NOTIONAL_EXPOSURE] at *
  set cn := Bot.currentNotional S L with hcn
  split_ifs with h1 h2 h3 h4 h5 h6
  · exact Or.inr rfl
  · exact Or.inr rfl
  · -- capital-clipped, then notional-clipped: result (5 - cn) / lev
    left
    push_neg at h2 h4
    rcases lt_trichotomy lev 0 with hneg | hzero | hpos
    · have : (5 - cn) / lev < 0 := div_neg_of_pos_of_neg h4 hneg
      linarith
    · rw [hzero, div_zero]; linarith
    · have : (5 - cn) / lev ≤ 27/20 - S := by
        rw [div_le_iff₀ hpos]
        nlinarith
      linarith
  · -- capital-clipped only: result is exactly the capital headroom
    left; linarith
  · exact Or.inr rfl
  · -- not capital-clipped, notional-clipped: result (5 - cn) / lev
    left
    push_neg at h1 h6
    rcases lt_trichotomy lev 0 with hneg | hzero | hpos
    · have : (5 - cn) / lev < 0 := div_neg_of_pos_of_neg h6 hneg
      linarith
    · rw [hzero, div_zero]; linarith
    · have hlt : (5 - cn) / lev < d := by
        rw [div_lt_iff₀ hpos]
        nlinarith
      linarith
  · left; push_neg at h1; linarith

lemma stepTrade_size_le (s : Option BotPos) (st : TradeStep)
    (h : optSize s ≤ Bot.MAX_CAPITAL_USAGE) :
    optSize (stepTrade s st) ≤ Bot.MAX_CAPITAL_USAGE := by
  match s, st with
  | none, TradeStep.entry price proposed =>
      simp only [stepTrade]
      by_cases happ : (SafetyValidator.validate_entry emptyValidator proposed none).2.approved
      · rw [if_pos happ]
        have hle := validate_entry_flat_le proposed happ
        simp only [optSize, Bot.open_position]
        have : Bot.MAX_CAPITAL_USAGE = 27/20 := rfl
        rw [this]
        linarith
      · rw [if_neg happ]
        exact h
  | some pos, TradeStep.entry _ _ => exact h
  | none, TradeStep.scaleIn _ _ _ => exact h
  | some pos, TradeStep.scaleIn price desired lev =>
      simp only [stepTrade]
      have hpos : pos.size ≤ Bot.MAX_CAPITAL_USAGE := h
      rcases check_exposure_limits_size_bound pos.size pos.leverage desired lev hpos
        with hle | hzero
      · by_cases hz : Bot.check_exposure_limits pos.size pos.leverage desired lev = 0
        · rw [if_pos hz]; exact h
        · rw [if_neg hz]
          simpa [optSize, Bot.scale_in_update] using hle
      · rw [if_pos hzero]; exact h

lemma foldl_stepTrade_size_le (steps : List TradeStep) :
    ∀ s : Option BotPos, optSize s ≤ Bot.MAX_CAPITAL_USAGE →
      optSize (steps.foldl stepTrade s) ≤ Bot.MAX_CAPITAL_USAGE := by
  induction steps with
  | nil => intro s h; exact h
  | cons st t ih => intro s h; exact ih (stepTrade s st) (stepTrade_size_le s st h)

/-- C1 counterexample: an entry of 0.75 approved unmodified by
`validate_entry` from a flat book, followed by a scale-in of 0.50 at 5x
approved in full by `check_exposure_limits`, leaves the aggregate position at
size 5/4 with the leverage field overwritten to 5, so the aggregate notional
`size * leverage = 25/4` exceeds `MAX_TOTAL_NOTIONAL = 5` (and the aggregate
size also exceeds the validator constant `MAX_CAPITAL_USAGE = 0.94`). -/
theorem exposure_cap_counterexample :
    ([TradeStep.entry 100 (3/4), TradeStep.scaleIn 95 (1/2) 5].foldl stepTrade none
        = some ⟨100, 98, 5/4, 5⟩) ∧
    (SafetyValidator.validate_entry emptyValidator (3/4) none).2.approved = true ∧
    Bot.check_exposure_limits (3/4) 3 (1/2) 5 = 1/2 ∧
    SafetyValidator.MAX_TOTAL_NOTIONAL < (5/4 : ℚ) * 5 ∧
    SafetyValidator.MAX_CAPITAL_USAGE < (5/4 : ℚ) := by
  refine ⟨?_, ?_, ?_, ?_, ?_⟩ <;>
    norm_num [List.foldl, stepTrade, SafetyValidator.validate_entry,
      SafetyValidator.MIN_POSITION_SIZE, SafetyValidator.MAX_POSITION_SIZE,
      SafetyValidator.MAX_CAPITAL_USAGE, SafetyValidator.MAX_TOTAL_NOTIONAL,
      SafetyValidator.MAX_LEVERAGE, SafetyValidator.calculate_current_notional,
      emptyValidator, Bot.check_exposure_limits, Bot.notionalClip, Bot.currentNotional,
      Bot.MAX_CAPITAL_USAGE, Bot.MAX_NOTIONAL_EXPOSURE, Bot.open_position,
      Bot.scale_in_update]

/-- C1 amended: for every sequence of entry and scale-in proposals filtered
through `validate_entry` and `check_exposure_limits`, the aggregate committed
size stays below the capital cap of 1.35 used by the limiter; the notional half of the
original claim fails because `check_scale_in` overwrites the leverage, see
`exposure_cap_counterexample`. -/
theorem exposure_size_invariant (steps : List TradeStep) :
    optSize (steps.foldl stepTrade none) ≤ Bot.MAX_CAPITAL_USAGE :=
  foldl_stepTrade_size_le steps none (by norm_num [optSize, Bot.MAX_CAPITAL_USAGE])

/-- C4: on any exposure state within both caps, with a positive trade
leverage, `check_exposure_limits` returns a size satisfying the capital cap
and the notional cap simultaneously even when the desired size violates both,
because the notional check is recomputed on the capital-clipped size; and
when either cap has no headroom left the result is 0. -/
theorem clip_ordering (S L d lev : ℚ) (hlev : 0 < lev)
    (hS : S ≤ Bot.MAX_CAPITAL_USAGE)
    (hN : Bot.currentNotional S L ≤ Bot.MAX_NOTIONAL_EXPOSURE)
    (hviolcap : Bot.MAX_CAPITAL_USAGE < S + d)
    (hviolnot : Bot.MAX_NOTIONAL_EXPOSURE < Bot.currentNotional S L + d * lev) :
    S + Bot.check_exposure_limits S L d lev ≤ Bot.MAX_CAPITAL_USAGE ∧
    Bot.currentNotional S L + Bot.check_exposure_limits S L d lev * lev ≤
      Bot.MAX_NOTIONAL_EXPOSURE ∧
    ((Bot.MAX_CAPITAL_USAGE ≤ S ∨ Bot.MAX_NOTIONAL_EXPOSURE ≤ Bot.currentNotional S L) →
      Bot.check_exposure_limits S L d lev = 0) := by
  simp only [Bot.check_exposure_limits, Bot.notionalClip, Bot.MAX_CAPITAL_USAGE,
    Bot.MAX_NOTIONAL_EXPOSURE] at *
  set cn := Bot.currentNotional S L with hcn
  rw [if_pos hviolcap]
  split_ifs with h1 h2 h3
  · -- no capital headroom
    refine ⟨by linarith, by linarith, fun _ => rfl⟩
  · -- capital clipped, notional still violated, no notional headroom
    refine ⟨by linarith, by linarith, fun _ => rfl⟩
  · -- capital clipped then notional clipped
    push_neg at h1 h3
    have hmul : (5 - cn) / lev * lev = 5 - cn := div_mul_cancel₀ _ (ne_of_gt hlev)
    refine ⟨?_, by rw [hmul]; linarith, ?_⟩
    · have hdiv : (5 - cn) / lev ≤ 27/20 - S := by
        rw [div_le_iff₀ hlev]
        nlinarith
      linarith
    · rintro (hc | hn)
      · exfalso; linarith
      · exfalso; linarith
  · -- capital clipped, notional satisfied on the clipped size
    push_neg at h1 h2
    refine ⟨by linarith, by linarith, ?_⟩
    rintro (hc | hn)
    · exfalso; linarith
    · exfalso
      have : 0 < (27/20 - S) * lev := mul_pos (by linarith) hlev
      linarith

/-- Witness for `clip_ordering`: capital 0.75 at 3x (notional 2.25), desired
size 1.0 at 5x violates both caps; the returned size is 0.55 and satisfies
both caps, matching the breach scenario of the specification. -/
theorem clip_ordering_witness :
    (Bot.MAX_CAPITAL_USAGE < (3/4 : ℚ) + 1) ∧
    (Bot.MAX_NOTIONAL_EXPOSURE < Bot.currentNotional (3/4) 3 + 1 * 5) ∧
    Bot.check_exposure_limits (3/4) 3 1 5 = 11/20 ∧
    ((3/4 : ℚ) + Bot.check_exposure_limits (3/4) 3 1 5 ≤ Bot.MAX_CAPITAL_USAGE ∧
     Bot.currentNotional (3/4) 3 + Bot.check_exposure_limits (3/4) 3 1 5 * 5 ≤
       Bot.MAX_NOTIONAL_EXPOSURE ∧
     ((Bot.MAX_CAPITAL_USAGE ≤ (3/4 : ℚ) ∨
         Bot.MAX_NOTIONAL_EXPOSURE ≤ Bot.currentNotional (3/4) 3) →
       Bot.check_exposure_limits (3/4) 3 1 5 = 0)) :=
  ⟨by norm_num [Bot.MAX_CAPITAL_USAGE],
   by norm_num [Bot.currentNotional, Bot.MAX_NOTIONAL_EXPOSURE],
   by norm_num [Bot.check_exposure_limits, Bot.notionalClip, Bot.currentNotional,
     Bot.MAX_CAPITAL_USAGE, Bot.MAX_NOTIONAL_EXPOSURE],
   clip_ordering (3/4) 3 1 5 (by norm_num)
     (by norm_num [Bot.MAX_CAPITAL_USAGE])
     (by norm_num [Bot.currentNotional, Bot.MAX_NOTIONAL_EXPOSURE])
     (by norm_num [Bot.MAX_CAPITAL_USAGE])
     (by norm_num [Bot.currentNotional, Bot.MAX_NOTIONAL_EXPOSURE])⟩

/-- C5: evaluating the `check_scale_in` position update at a position of size
0.75 with 3x leverage and a scale-in of 0.25 at 5x shows the leverage field
is overwritten to 5, while the capital-weighted leverage required by the
specification is `(3*0.75 + 5*0.25)/(0.75+0.25) = 3.5`. -/
theorem scale_in_overwrites_leverage :
    (Bot.scale_in_update ⟨100, 100, 3/4, 3⟩ 95 (1/4) 5).leverage = 5 ∧
    (3 * (3/4) + 5 * (1/4)) / ((3/4 : ℚ) + 1/4) = 7/2 ∧
    (Bot.scale_in_update ⟨100, 100, 3/4, 3⟩ 95 (1/4) 5).leverage ≠
      (3 * (3/4) + 5 * (1/4)) / ((3/4 : ℚ) + 1/4) := by
  refine ⟨rfl, by norm_num, ?_⟩
  rw [show (Bot.scale_in_update ⟨100, 100, 3/4, 3⟩ 95 (1/4) 5).leverage = 5 from rfl]
  norm_num

/-- C6: for every live exchange position, optional saved state and logger
state, the recovery step produces a reconciled position, and `log_recovery`
leaves the `current_position` mirror of the logger non-null with entry price,
average price, size and leverage equal to those of the reconciled position. -/
theorem recovery_mirror_synchronized (live : LivePosition) (saved : Option SavedState)
    (logger : LoggerState) (nowIso logIso : String) :
    ∃ (rp : RecoveredPosition) (last : Option ℚ) (m : Mirror),
      recover_position (some live) saved nowIso = some (rp, last) ∧
      (log_recovery logger rp logIso).current_position = some m ∧
      m.entry_price = rp.entry_price ∧ m.average_price = rp.average_price ∧
      m.size = rp.size ∧ m.leverage = rp.leverage :=
  ⟨_, _, _, rfl, rfl, rfl, rfl, rfl, rfl⟩

/-- C8: with no saved state file, the recovered position falls back to the
exchange entry price as its average price and a zero scale-in count; with a
saved state carrying a persisted average price and scale-in count, those
local values are preferred over the exchange report. -/
theorem recovery_prefers_local_state :
    (∀ (lp : LivePosition) (t : String),
        recover_position (some lp) none t =
          some ({ entry_price := lp.entry_price, average_price := lp.entry_price,
                  size := lp.amount, leverage := lp.leverage.getD 3,
                  entry_time := t, scale_in_count := 0 }, some lp.entry_price)) ∧
    (∀ (lp : LivePosition) (ss : SavedState) (sp : SavedPos) (a : ℚ) (c : ℕ) (t : String),
        ss.position = some sp → sp.average_price = some a → ss.scale_in_count = some c →
        (recover_position (some lp) (some ss) t).map
            (fun x => (x.1.average_price, x.1.scale_in_count)) = some (a, c)) := by
  constructor
  · intro lp t; rfl
  · intro lp ss sp a c t hpos havg hcount
    simp [recover_position, hpos, havg, hcount]

/-- Witness for `recovery_prefers_local_state` at a concrete saved state: the
persisted average 97 and count 2 win over the exchange entry price 100. -/
theorem recovery_prefers_local_state_witness :
    ((⟨"t0", some ⟨some 97⟩, some 100, some 2⟩ : SavedState).position = some ⟨some 97⟩) ∧
    (recover_position (some ⟨1/2, 100, some 3, 0⟩)
        (some ⟨"t0", some ⟨some 97⟩, some 100, some 2⟩) "now").map
      (fun x => (x.1.average_price, x.1.scale_in_count)) = some (97, 2) :=
  ⟨rfl, recovery_prefers_local_state.2 ⟨1/2, 100, some 3, 0⟩
    ⟨"t0", some ⟨some 97⟩, some 100, some 2⟩ ⟨some 97⟩ 97 2 "now" rfl rfl rfl⟩

/-- C7 counterexample: an ADD of 0.08 on a position whose current notional is
4.9 at 4x leverage is clipped to 0.05 and approved, even though the clipped
add would take the notional to 5.1, above `MAX_TOTAL_NOTIONAL = 5`: the
amount-cap branch of `validate_adjustment` returns before the notional
check runs. -/
theorem add_notional_counterexample :
    (SafetyValidator.validate_adjustment emptyValidator "2025-10-12" 10 "ADD" (2/25)
        ⟨1, 4, 100, some (49/40)⟩ 100).2.approved = true ∧
    (SafetyValidator.validate_adjustment emptyValidator "2025-10-12" 10 "ADD" (2/25)
        ⟨1, 4, 100, some (49/40)⟩ 100).2.adjusted = some SafetyValidator.MAX_ADD_PER_REVIEW ∧
    SafetyValidator.MAX_TOTAL_NOTIONAL <
      SafetyValidator.calculate_current_notional (some ⟨1, 4, 100, some (49/40)⟩) +
        SafetyValidator.MAX_ADD_PER_REVIEW * (4 : ℚ) := by
  refine ⟨?_, ?_, ?_⟩ <;>
    norm_num [SafetyValidator.validate_adjustment, SafetyValidator.calculate_current_notional,
      SafetyValidator.MAX_ADJUSTMENTS_PER_DAY, SafetyValidator.MAX_ADD_PER_REVIEW,
      SafetyValidator.MAX_TOTAL_NOTIONAL, emptyValidator, getLog]

/-- C7 amended: once the daily-limit and cooldown checks pass, an ADD
proposal above `MAX_ADD_PER_REVIEW` is clipped to 0.05 and approved with no
notional check; only a proposal already at or below 0.05 is tested against
the notional cap, rejected when the added notional would push the current
notional above `MAX_TOTAL_NOTIONAL` and approved otherwise. -/
theorem add_adjustment_amended (s : ValidatorState) (today : String) (now : ℚ)
    (amount : ℚ) (pos : Pos) (price : ℚ)
    (hdaily : (getLog s.adjustment_log today).length < SafetyValidator.MAX_ADJUSTMENTS_PER_DAY)
    (hcool : ¬ (now - s.last_adjustment_time < 1800 ∧ 0 < s.last_adjustment_time)) :
    (SafetyValidator.MAX_ADD_PER_REVIEW < amount →
      (SafetyValidator.validate_adjustment s today now "ADD" amount pos price).2
        = ⟨true, "Capped at 5 percent max add", some SafetyValidator.MAX_ADD_PER_REVIEW⟩) ∧
    (amount ≤ SafetyValidator.MAX_ADD_PER_REVIEW →
      (SafetyValidator.MAX_TOTAL_NOTIONAL <
          SafetyValidator.calculate_current_notional (some pos) + amount * pos.leverage →
        (SafetyValidator.validate_adjustment s today now "ADD" amount pos price).2.approved
          = false) ∧
      (SafetyValidator.calculate_current_notional (some pos) + amount * pos.leverage ≤
          SafetyValidator.MAX_TOTAL_NOTIONAL →
        (SafetyValidator.validate_adjustment s today now "ADD" amount pos price).2.approved
          = true)) := by
  have hd : ¬ SafetyValidator.MAX_ADJUSTMENTS_PER_DAY ≤ (getLog s.adjustment_log today).length :=
    Nat.not_le.mpr hdaily
  constructor
  · intro hlt
    simp only [SafetyValidator.validate_adjustment]
    rw [if_neg hd, if_neg hcool, if_pos ⟨by trivial, hlt⟩]
  · intro hle
    constructor
    · intro hover
      simp only [SafetyValidator.validate_adjustment]
      rw [if_neg hd, if_neg hcool, if_neg (fun hc => absurd hc.2 (not_lt.mpr hle)),
        if_pos ⟨by trivial, hover⟩]
    · intro hunder
      simp only [SafetyValidator.validate_adjustment]
      rw [if_neg hd, if_neg hcool, if_neg (fun hc => absurd hc.2 (not_lt.mpr hle)),
        if_neg (fun hc => absurd hc.2 (not_lt.mpr hunder)),
        if_neg (fun hc => by exact absurd hc.1 (by simp)),
        if_neg (fun hc => by exact absurd hc.1 (by simp))]

/-- Witness for `add_adjustment_amended`: a fresh validator, an ADD of 0.08
(clipped to 0.05 and approved) on the counterexample position. -/
theorem add_adjustment_amended_witness :
    (getLog emptyValidator.adjustment_log "2025-10-12").length <
      SafetyValidator.MAX_ADJUSTMENTS_PER_DAY ∧
    (SafetyValidator.validate_adjustment emptyValidator "2025-10-12" 10 "ADD" (2/25)
        ⟨1, 4, 100, some (49/40)⟩ 100).2
      = ⟨true, "Capped at 5 percent max add", some SafetyValidator.MAX_ADD_PER_REVIEW⟩ :=
  ⟨by norm_num [getLog, emptyValidator, SafetyValidator.MAX_ADJUSTMENTS_PER_DAY],
   (add_adjustment_amended emptyValidator "2025-10-12" 10 (2/25) ⟨1, 4, 100, some (49/40)⟩ 100
      (by norm_num [getLog, emptyValidator, SafetyValidator.MAX_ADJUSTMENTS_PER_DAY])
      (by norm_num [emptyValidator])).1
     (by norm_num [SafetyValidator.MAX_ADD_PER_REVIEW])⟩

/-- C9 counterexample: at fearGreed 10, fundingRate -0.05, longShortRatio
0.5, the three sub-multipliers are 1.3, 1.3 and 1.2 and the result is their
clamp-inactive mean 19/15 (about 1.267), not the claimed 1.5. -/
theorem sentiment_clamp_counterexample :
    Bot.calculate_sentiment_multiplier 10 (-(1/20)) (1/2) = 19/15 ∧
    Bot.calculate_sentiment_multiplier 10 (-(1/20)) (1/2) ≠ 3/2 := by
  have h : Bot.calculate_sentiment_multiplier 10 (-(1/20)) (1/2) = 19/15 := by
    norm_num [Bot.calculate_sentiment_multiplier]
  exact ⟨h, by rw [h]; norm_num⟩

/-- C9 amended: at fearGreed 10, fundingRate -0.05, longShortRatio 0.5 the
multiplier equals 19/15 (the clamp is inactive), and on every input the
multiplier lies within the interval from 0.5 to 1.5. -/
theorem sentiment_multiplier_amended :
    Bot.calculate_sentiment_multiplier 10 (-(1/20)) (1/2) = 19/15 ∧
    ∀ fg fr lsr : ℚ, 1/2 ≤ Bot.calculate_sentiment_multiplier fg fr lsr ∧
      Bot.calculate_sentiment_multiplier fg fr lsr ≤ 3/2 := by
  refine ⟨by norm_num [Bot.calculate_sentiment_multiplier], fun fg fr lsr => ⟨?_, ?_⟩⟩
  · exact le_max_left _ _
  · exact max_le (by norm_num) (min_le_left _ _)

lemma getLog_logUpdate (l : List (String × List AdjRecord)) (day : String) (rec : AdjRecord) :
    getLog (logUpdate l day rec) day = getLog l day ++ [rec] := by
  induction l with
  | nil => simp [logUpdate, getLog]
  | cons p rest ih =>
      obtain ⟨d, rs⟩ := p
      by_cases hd : d = day
      · simp [logUpdate, getLog, hd]
      · simp [logUpdate, getLog, hd, ih]

/-- C10: the three validation operations are pure with respect to the
validator state — each returns the incoming `adjustment_log` and
`last_adjustment_time` untouched on every verdict path — while
`log_adjustment` appends exactly one record to the ledger of the day and resets the
cooldown timer to the current time. -/
theorem validation_is_side_effect_free :
    (∀ (s : ValidatorState) (size : ℚ) (cp : Option Pos),
        (SafetyValidator.validate_entry s size cp).1 = s) ∧
    (∀ (s : ValidatorState) (today : String) (now : ℚ) (action : String)
        (amount : ℚ) (pos : Pos) (price : ℚ),
        (SafetyValidator.validate_adjustment s today now action amount pos price).1 = s) ∧
    (∀ (s : ValidatorState) (exit_pct : ℚ),
        (SafetyValidator.validate_exit s exit_pct).1 = s) ∧
    (∀ (s : ValidatorState) (today nowIso : String) (now : ℚ) (action : String) (amount : ℚ),
        (SafetyValidator.log_adjustment s today nowIso now action amount).last_adjustment_time
          = now ∧
        getLog (SafetyValidator.log_adjustment s today nowIso now action amount).adjustment_log
            today
          = getLog s.adjustment_log today ++ [⟨nowIso, action, amount⟩]) := by
  refine ⟨fun s size cp => ?_, fun s today now action amount pos price => ?_,
    fun s exit_pct => ?_, fun s today nowIso now action amount => ⟨rfl, ?_⟩⟩
  · simp only [SafetyValidator.validate_entry]
    split_ifs <;> rfl
  · simp only [SafetyValidator.validate_adjustment]
    split_ifs <;> rfl
  · simp only [SafetyValidator.validate_exit]
    split_ifs <;> rfl
  · exact getLog_logUpdate s.adjustment_log today ⟨nowIso, action, amount⟩
